import Mathlib

/- Verification development for the harmonic-python-client repository.

   The definitions below are a shallow embedding of the Python sources:
   `harmonic_client/client.py` (paginated fetch-and-batch pipeline, error
   check, human-like pacer), `harmonic_client/get_full_profile.py` and the
   other detail-fetch clients (error handling of GraphQL error lists), and
   `harmonic_client/sync_harmonic_to_bigquery.py` (idempotent sync
   transform). JSON documents are modelled by the `Json` inductive; Python
   exceptions are modelled by `Except String`; network traffic is modelled
   by passing the list of upstream HTTP responses (status code and parsed
   JSON body) that the loop would consume, in order. -/

namespace Harmonic

/-- JSON values as parsed by `response.json()`. Numbers are modelled as
integers (no claim in this development depends on float payloads). -/
inductive Json where
  | null
  | bool (b : Bool)
  | num (n : Int)
  | str (s : String)
  | arr (items : List Json)
  | obj (fields : List (String × Json))
  deriving Repr, Inhabited

/-- First binding of a key in a JSON object body (Python dict lookup). -/
def lookupField : List (String × Json) → String → Option Json
  | [], _ => none
  | (k0, v) :: rest, k => if k0 = k then some v else lookupField rest k

/-- Dict lookup that yields `none` for a missing key or a non-object. -/
def Json.getField? : Json → String → Option Json
  | .obj fields, k => lookupField fields k
  | _, _ => none

/-- Python truthiness of a JSON value (`if data`, `if current_batch`, ...). -/
def jsonTruthy : Json → Bool
  | .null => false
  | .bool b => b
  | .num n => n != 0
  | .str s => s != ""
  | .arr items => !items.isEmpty
  | .obj fields => !fields.isEmpty

/-- True exactly for JSON null, which is Python `None` after `response.json()`. -/
def Json.isNull : Json → Bool
  | .null => true
  | _ => false

/-- Python subscription `v[k]`: raises `KeyError` on a missing key and
`TypeError` when the receiver is not a dict. -/
def jsonIndex (v : Json) (k : String) : Except String Json :=
  match v with
  | .obj fields =>
    match lookupField fields k with
    | some x => .ok x
    | none => .error ("KeyError: " ++ k)
  | _ => .error ("TypeError: subscript " ++ k)

/-- Python `v.get(k)`: `None` (JSON null) for a missing key; raises
`AttributeError` when the receiver is not a dict. -/
def py_get (v : Json) (k : String) : Except String Json :=
  match v with
  | .obj fields => .ok ((lookupField fields k).getD Json.null)
  | _ => .error ("AttributeError: get " ++ k)

/-- Python `v.get(k, d)` with an explicit default. -/
def py_getD (v : Json) (k : String) (d : Json) : Except String Json :=
  match v with
  | .obj fields => .ok ((lookupField fields k).getD d)
  | _ => .error ("AttributeError: get " ++ k)

/-- Python iteration / `list.extend` over a JSON value, which the client only
ever applies to the `edges` arrays of the response; a non-array here is a
`TypeError` (Python would raise on non-iterables). -/
def Json.asArr : Json → Except String (List Json)
  | .arr items => .ok items
  | _ => .error "TypeError: not a list"

mutual

/-- Structural equality test on JSON values, used to model Python `==` and
dict-key identity (e.g. the `dict.fromkeys` de-duplication). -/
def Json.beq : Json → Json → Bool
  | .null, .null => true
  | .bool a, .bool b => a == b
  | .num a, .num b => a == b
  | .str a, .str b => a == b
  | .arr a, .arr b => Json.beqList a b
  | .obj a, .obj b => Json.beqFields a b
  | _, _ => false

def Json.beqList : List Json → List Json → Bool
  | [], [] => true
  | a :: as, b :: bs => Json.beq a b && Json.beqList as bs
  | _, _ => false

def Json.beqFields : List (String × Json) → List (String × Json) → Bool
  | [], [] => true
  | (ka, va) :: as, (kb, vb) :: bs => ka == kb && Json.beq va vb && Json.beqFields as bs
  | _, _ => false

end

mutual

/-- Serialization in the style of `json.dumps` (default separators). String
escaping is not modelled: no claim inspects serialized text beyond
case-insensitive keyword containment on plain words. -/
def Json.dumps : Json → String
  | .null => "null"
  | .bool true => "true"
  | .bool false => "false"
  | .num n => toString n
  | .str s => "\"" ++ s ++ "\""
  | .arr items => "[" ++ Json.dumpsList items ++ "]"
  | .obj fields => "\x7b" ++ Json.dumpsFields fields ++ "\x7d"

def Json.dumpsList : List Json → String
  | [] => ""
  | [x] => Json.dumps x
  | x :: rest => Json.dumps x ++ ", " ++ Json.dumpsList rest

def Json.dumpsFields : List (String × Json) → String
  | [] => ""
  | [(k, v)] => "\"" ++ k ++ "\": " ++ Json.dumps v
  | (k, v) :: rest => "\"" ++ k ++ "\": " ++ Json.dumps v ++ ", " ++ Json.dumpsFields rest

end

/-- Substring containment, modelling the Python `in` operator on strings
for the non-empty auth keywords. -/
def strContainsSub (s pat : String) : Bool := (s.splitOn pat).length != 1

/-- One dispatched notification, as produced by `HarmonicErrorNotifier`
(`notify_auth_failure` / `notify_api_error`). The notifier-side once-per-day
de-duplication is external state and is not part of this embedding; a value
here is one dispatch of the notification path. -/
inductive Notification where
  | authFailure (detail : String)
  | apiError (kind : String) (detail : String)
  deriving DecidableEq, Repr

/-- The auth keyword set of `HarmonicClient._check_and_notify_error`. -/
def auth_keywords : List String :=
  ["unauthorized", "unauthenticated", "token", "expired", "invalid", "forbidden", "401", "403"]

/-- Embedding of `HarmonicClient._check_and_notify_error` for the pagination
loop, where both `response` and `data` are always passed. Returns the boolean
result together with the notifications dispatched by the call. `str(errors)`
for a non-list errors value is rendered with the same serializer as
`json.dumps`; the difference (quote style) is irrelevant to keyword search
on the claims settled here. -/
def check_and_notify_error (statusCode : Nat) (data : Json) : Bool × List Notification :=
  if statusCode = 401 ∨ statusCode = 403 then
    (true, [.authFailure ("HTTP " ++ toString statusCode ++ ": Authentication/authorization failed")])
  else if jsonTruthy data && (data.getField? "errors").isSome then
    let errs := (data.getField? "errors").getD Json.null
    let errorStr := Json.dumps errs
    if auth_keywords.any fun kw => strContainsSub errorStr.toLower kw then
      (true, [.authFailure (errorStr.take 500)])
    else
      (true, [.apiError "GraphQL Error" (errorStr.take 500)])
  else
    (false, [])

/-- Batch accumulator slice of the loop state of
`get_company_saved_search_results`: `current_batch`, `batch_number` and the
flushed batches (`_save_companies_to_json` writes, in flush order, each
tagged with its batch number). -/
structure BatchSt where
  currentBatch : List Json
  batchNumber : Nat
  flushes : List (Nat × List Json)
  deriving Repr

/-- Why the pagination loop stopped: the error-check break, the
`hasNextPage` break, or the `max_pages` break of the source. -/
inductive TerminalReason where
  | error
  | exhausted
  | pageLimitReached
  deriving DecidableEq, Repr, Inhabited

/-- Aggregate result of one run of `get_company_saved_search_results`:
the returned dict (`total_count`, `companies`, `pages_fetched`) plus the
observable side effects (batch flushes, notifications dispatched), the
break that ended the loop and the number of HTTP POSTs performed. -/
structure FetchOutcome where
  totalCount : Json
  companies : List Json
  pagesFetched : Nat
  flushes : List (Nat × List Json)
  notes : List Notification
  reason : TerminalReason
  fetches : Nat
  deriving Repr, Inhabited

/-- Mutable state of the pagination loop. -/
structure LoopState where
  payload : Json
  allEdges : List Json
  totalCount : Json
  page : Nat
  batcher : BatchSt
  notes : List Notification
  fetches : Nat
  deriving Repr

/-- The in-loop batch step: flush `current_batch` when it has reached
`batch_size` (`if len(current_batch) >= batch_size`). -/
def maybeFlush (batchSize : Nat) (b : BatchSt) : BatchSt :=
  if batchSize ≤ b.currentBatch.length then
    { currentBatch := [], batchNumber := b.batchNumber + 1,
      flushes := b.flushes ++ [(b.batchNumber, b.currentBatch)] }
  else b

/-- The after-loop remainder flush (`if current_batch: _save_companies_to_json(...)`). -/
def finalFlushes (b : BatchSt) : List (Nat × List Json) :=
  if b.currentBatch.isEmpty then b.flushes
  else b.flushes ++ [(b.batchNumber, b.currentBatch)]

/-- Everything the function does after the `while` loop ends: flush the
non-empty remainder and build the returned aggregate. -/
def finishLoop (st : LoopState) (reason : TerminalReason) : FetchOutcome :=
  { totalCount := st.totalCount, companies := st.allEdges, pagesFetched := st.page,
    flushes := finalFlushes st.batcher, notes := st.notes, reason := reason,
    fetches := st.fetches }

/-- Python `payload["variables"]["after"] = cursor`: raises `KeyError` when
`variables` is absent and `TypeError` when the payload or its `variables`
entry is not a dict; otherwise updates the binding in place. -/
def setKey : List (String × Json) → String → Json → List (String × Json)
  | [], k, v => [(k, v)]
  | (k0, v0) :: rest, k, v =>
    if k0 = k then (k0, v) :: rest else (k0, v0) :: setKey rest k v

def setCursor (payload cursor : Json) : Except String Json :=
  match payload with
  | .obj fields =>
    match lookupField fields "variables" with
    | some (.obj vars) =>
      .ok (.obj (setKey fields "variables" (.obj (setKey vars "after" cursor))))
    | some _ => .error "TypeError: variables is not a dict"
    | none => .error "KeyError: variables"
  | _ => .error "TypeError: payload is not a dict"

/-- True when the payload is a dict whose `variables` entry is a dict, the
shape the cursor assignment of the source needs to succeed. -/
def hasVarsObj (payload : Json) : Bool :=
  match payload.getField? "variables" with
  | some (.obj _) => true
  | _ => false

/-- The `while True` pagination loop of
`HarmonicClient.get_company_saved_search_results`, consuming one upstream
response `(status code, parsed JSON body)` per iteration, in source order:
error check and break, nested extraction
`data["data"]["getSavedSearch"]["results"]` and `["edges"]`, extend of
`all_edges` and `current_batch`, first-non-None `totalCount` capture, batch
flush check, `pageInfo` extraction, `hasNextPage` break, `max_pages` break,
cursor assignment and page increment. An exhausted response list models a
network-level failure of `requests.post` (the loop itself never ends
without a break). The human-like delay between iterations does not touch
this state and is modelled separately by `apply_human_like_delay`. -/
def fetch_pages (maxPages batchSize : Nat) :
    List (Nat × Json) → LoopState → Except String FetchOutcome
  | [], _ => .error "ConnectionError: no response"
  | (statusCode, data) :: rest, st =>
    let st1 := { st with fetches := st.fetches + 1 }
    let checked := check_and_notify_error statusCode data
    let st2 := { st1 with notes := st1.notes ++ checked.2 }
    if checked.1 then .ok (finishLoop st2 .error)
    else
      match jsonIndex data "data" with
      | .error e => .error e
      | .ok dataField =>
      match jsonIndex dataField "getSavedSearch" with
      | .error e => .error e
      | .ok savedSearch =>
      match jsonIndex savedSearch "results" with
      | .error e => .error e
      | .ok searchCompanies =>
      match jsonIndex searchCompanies "edges" with
      | .error e => .error e
      | .ok edgesVal =>
      match edgesVal.asArr with
      | .error e => .error e
      | .ok edges =>
      let st3 :=
        { st2 with
          allEdges := st2.allEdges ++ edges,
          batcher :=
            { st2.batcher with currentBatch := st2.batcher.currentBatch ++ edges } }
      match py_get searchCompanies "totalCount" with
      | .error e => .error e
      | .ok tc =>
      let st4 := { st3 with totalCount := if st3.totalCount.isNull then tc else st3.totalCount }
      let st5 := { st4 with batcher := maybeFlush batchSize st4.batcher }
      match jsonIndex searchCompanies "pageInfo" with
      | .error e => .error e
      | .ok pageInfo =>
      match jsonIndex pageInfo "hasNextPage" with
      | .error e => .error e
      | .ok hasNextPage =>
      if !(jsonTruthy hasNextPage) then .ok (finishLoop st5 .exhausted)
      else if maxPages ≤ st5.page then .ok (finishLoop st5 .pageLimitReached)
      else
        match jsonIndex pageInfo "endCursor" with
        | .error e => .error e
        | .ok endCursor =>
        match setCursor st5.payload endCursor with
        | .error e => .error e
        | .ok payload2 =>
        fetch_pages maxPages batchSize rest { st5 with payload := payload2, page := st5.page + 1 }

/-- Initial loop state of `get_company_saved_search_results`. -/
def initState (payload : Json) : LoopState :=
  { payload := payload, allEdges := [], totalCount := Json.null, page := 1,
    batcher := { currentBatch := [], batchNumber := 1, flushes := [] },
    notes := [], fetches := 0 }

/-- Embedding of `HarmonicClient.get_company_saved_search_results`, run
against the given stream of upstream responses. -/
def get_company_saved_search_results (responses : List (Nat × Json)) (payload : Json)
    (max_pages batchSize : Nat) : Except String FetchOutcome :=
  fetch_pages max_pages batchSize responses (initState payload)

/-- Result projection helper for stating properties of a run that returned
normally. -/
def exceptMap {α β : Type} (f : α → β) : Except String α → Except String β
  | .ok a => .ok (f a)
  | .error e => .error e

/-- Whether an exceptional computation returned normally. -/
def exceptOk {ε α : Type} : Except ε α → Bool
  | .ok _ => true
  | .error _ => false

/-- Well-formed page body with the nested path the extraction uses:
`data.getSavedSearch.results` holding `edges`, `totalCount` and
`pageInfo.hasNextPage/endCursor`. -/
def mkResults (edges : List Json) (totalCount : Json) (hasNext : Bool) (cursor : String) : Json :=
  Json.obj [("edges", Json.arr edges), ("totalCount", totalCount),
            ("pageInfo", Json.obj [("hasNextPage", Json.bool hasNext),
                                   ("endCursor", Json.str cursor)])]

/-- Wraps a results object in the fixed nested path of the operation. -/
def wrapResults (results : Json) : Json :=
  Json.obj [("data", Json.obj [("getSavedSearch", Json.obj [("results", results)])])]

def mkPageBody (edges : List Json) (totalCount : Json) (hasNext : Bool) (cursor : String) : Json :=
  wrapResults (mkResults edges totalCount hasNext cursor)

/-- Concatenation of the flushed batches, in flush order. -/
def flushedConcat (flushes : List (Nat × List Json)) : List Json :=
  (flushes.map Prod.snd).flatten

/-- Number of auth-failure notifications in a dispatch list. -/
def countAuth (notes : List Notification) : Nat :=
  notes.countP fun n => match n with | .authFailure _ => true | _ => false

/-- A concrete payload with an object-shaped `variables` entry. -/
def payload0 : Json := Json.obj [("variables", Json.obj [("idOrUrn", Json.str "149709")])]

inductive DelayKind where
  | short
  | long
  deriving DecidableEq, Repr

/-- A delay decision: the sleep duration is drawn uniformly from `[lo, hi)`
seconds; `kind` records which branch of the pacer fired. -/
structure DelayDraw where
  lo : Nat
  hi : Nat
  kind : DelayKind
  deriving DecidableEq, Repr

/-- Embedding of `HarmonicClient._apply_human_like_delay` (times in
seconds). Its `start_time` parameter is unused by the source body and is
omitted. When at least three minutes have elapsed since `lastLongBreak`, the
sleep is drawn from `random.uniform(60*3, 60*5)`, i.e. `[180, 300)`;
otherwise from `random.uniform(2, 8)`. The source line
`last_long_break = current_time` in the long branch rebinds a local
parameter only, so the caller never observes a reset; the trace functions
below make that visible. -/
def apply_human_like_delay (lastLongBreak currentTime : Nat) : DelayDraw :=
  if 180 ≤ currentTime - lastLongBreak then
    { lo := 180, hi := 300, kind := .long }
  else
    { lo := 2, hi := 8, kind := .short }

/-- Delay decisions the pagination loop actually makes when its inter-page
delays happen at the given clock times: `get_company_saved_search_results`
initializes `last_long_break = start_time` and never reassigns it, so every
call to `_apply_human_like_delay` receives `start_time` as reference
point. -/
def clientDelayTrace (startTime : Nat) (times : List Nat) : List DelayDraw :=
  times.map fun t => apply_human_like_delay startTime t

/-- Modelled from the spec: the pacer contract of section 4.1, under which
the caller resets its last-long-break reference point to now after each
long break, so that a delay taken within three minutes of a long break is a
short one. Kept for comparison with `clientDelayTrace`. -/
def specDelayTrace (lastLongBreak : Nat) : List Nat → List DelayDraw
  | [] => []
  | t :: rest =>
    let d := apply_human_like_delay lastLongBreak t
    d :: specDelayTrace (if d.kind = DelayKind.long then t else lastLongBreak) rest

/-- True when the parsed response body has a top-level errors entry
(Python `"errors" in data`). -/
def hasErrorsKey (data : Json) : Bool := (data.getField? "errors").isSome

/-- The message of the `raise Exception(f"GraphQL errors: ...")` sites. -/
def graphqlErrorsMsg (data : Json) : String :=
  "GraphQL errors: " ++ Json.dumps ((data.getField? "errors").getD Json.null)

/-- Embedding of `HarmonicFullProfileClient.get_education` after
`_make_request` returned `data`: raises on a top-level errors entry,
otherwise returns
`data.get("data", {}).get("getPersonById", {}).get("education", [])`. -/
def get_education_result (data : Json) : Except String Json :=
  if hasErrorsKey data then .error (graphqlErrorsMsg data)
  else do
    let d1 ← py_getD data "data" (Json.obj [])
    let person ← py_getD d1 "getPersonById" (Json.obj [])
    py_getD person "education" (Json.arr [])

/-- Embedding of `HarmonicFullProfileClient.get_experience` after
`_make_request`: raises on a top-level errors entry, otherwise returns the
`experience` entry of `getPersonById`. -/
def get_experience_result (data : Json) : Except String Json :=
  if hasErrorsKey data then .error (graphqlErrorsMsg data)
  else do
    let d1 ← py_getD data "data" (Json.obj [])
    let person ← py_getD d1 "getPersonById" (Json.obj [])
    py_getD person "experience" (Json.arr [])

/-- Embedding of `HarmonicEducationClient.get_person_education` (and, with
the same shape, `get_person_experience` of `get_experience.py` and the
profile detail operation of `get_profile.py`) after `_make_request`: raises
on a top-level errors entry, otherwise returns
`data.get("data", {}).get("getPersonById", {})`. -/
def get_person_education_result (data : Json) : Except String Json :=
  if hasErrorsKey data then .error (graphqlErrorsMsg data)
  else do
    let d1 ← py_getD data "data" (Json.obj [])
    py_getD d1 "getPersonById" (Json.obj [])

/-- Embedding of `HarmonicSearchClient.search` (`search_name.py`) after
`_make_request`: raises on a top-level errors entry, otherwise returns
`data.get("data", {})`. -/
def search_op_result (data : Json) : Except String Json :=
  if hasErrorsKey data then .error (graphqlErrorsMsg data)
  else py_getD data "data" (Json.obj [])

/-- The category collection of `get_person_highlights`: Python list
comprehension `[h.get("category", "") for h in highlights if h.get("category")]`. -/
def highlight_categories : List Json → Except String (List Json)
  | [] => .ok []
  | h :: rest => do
    let cond ← py_get h "category"
    if jsonTruthy cond then do
      let v ← py_getD h "category" (Json.str "")
      let rest2 ← highlight_categories rest
      pure (v :: rest2)
    else
      highlight_categories rest

/-- Python `list(dict.fromkeys(xs))`: de-duplication keeping the first
occurrence of each value. -/
def dedupFirst (seen : List Json) : List Json → List Json
  | [] => []
  | x :: rest =>
    if seen.any fun y => Json.beq y x then dedupFirst seen rest
    else x :: dedupFirst (seen ++ [x]) rest

/-- Embedding of `HarmonicFullProfileClient.get_person_highlights` after
`_make_request`: on a top-level errors entry it returns the empty list
(it does not raise); otherwise it collects the truthy category values of
the highlights entries, de-duplicated keeping first occurrences. -/
def get_person_highlights_result (data : Json) : Except String (List Json) :=
  if hasErrorsKey data then .ok []
  else do
    let d1 ← py_getD data "data" (Json.obj [])
    let person ← py_getD d1 "getPersonById" (Json.obj [])
    let hsVal ← py_getD person "highlights" (Json.arr [])
    let hs ← hsVal.asArr
    let cats ← highlight_categories hs
    pure (dedupFirst [] cats)

/-- A warehouse row: a flat mapping from column name to value. -/
abbrev Row := List (String × Json)

/-- Python `x or y` (used for the `.get(...) or ""` / `or` default idiom). -/
def jsonOr (v d : Json) : Json := if jsonTruthy v then v else d

/-- A non-empty string, else the fallback (Python string `or`). -/
def strOr (s d : String) : String := if s = "" then d else s

/-- Rendering of a value interpolated into an f-string (`str(v)`); only the
shapes the sync path produces are distinguished. -/
def jsonToPyStr : Json → String
  | .str s => s
  | .num n => toString n
  | .bool true => "True"
  | .bool false => "False"
  | .null => "None"
  | v => Json.dumps v

/-- Python `s.rstrip("/")`. -/
def rstripSlash (s : String) : String :=
  String.mk ((s.data.reverse.dropWhile fun c => c = '/').reverse)

/-- The `try: d = v[:10] except: pass` pattern of the sync transforms: a
string is truncated to its first ten characters; any other shape is
treated as a swallowed type error (non-string date payloads never occur
upstream and their exotic slicing behaviours are not modelled). -/
def sliceDate10 : Json → Option String
  | .str s => some (s.take 10)
  | _ => none

/-- Date handling of the transforms: `if x.get(k): try: d = x[k][:10]
except: pass`, with `d` previously initialized to `dflt` (None for the
education dates and the experience end date, the empty string for the
experience start date). -/
def parseDateField (x : Json) (k : String) (dflt : Json) : Except String Json := do
  let v ← py_get x k
  if jsonTruthy v then
    match sliceDate10 v with
    | some s => pure (Json.str s)
    | none => pure dflt
  else
    pure dflt

/-- One row of `HarmonicToBigQuerySync.transform_education`, for the entry
at zero-based index `idx`. -/
def transform_education_row (linkedin_id today : String) (idx : Nat) (edu : Json) :
    Except String Row := do
  let school ← py_getD edu "school" (Json.obj [])
  let school_name ← py_getD school "name" (Json.str "")
  let linkedin_url ← py_getD school "linkedinUrl" (Json.str "")
  let logoRaw ← py_get school "logoUrl"
  let logo_url := jsonOr logoRaw (Json.str "")
  let school_urn ←
    if jsonTruthy linkedin_url then
      match linkedin_url with
      | .str u =>
        let parts := (rstripSlash u).splitOn "/"
        if !parts.isEmpty then pure ("urn:li:fs_miniSchool:" ++ parts.getLastD "")
        else pure ""
      | _ => .error "AttributeError: rstrip"
    else pure ""
  let start_date ← parseDateField edu "startDate" Json.null
  let end_date ← parseDateField edu "endDate" Json.null
  let entity_urn := "urn:li:fs_education:harmonic_" ++ linkedin_id ++ "_" ++ toString idx
  let fieldRaw ← py_get edu "field"
  let degree ← py_get edu "degree"
  pure [("date", Json.str today),
        ("linkedinId", Json.str linkedin_id),
        ("entityUrn", Json.str entity_urn),
        ("school_objectUrn", Json.str (strOr school_urn ("urn:li:school:harmonic_" ++ toString idx))),
        ("school_entityUrn", Json.str (strOr school_urn ("urn:li:fs_miniSchool:harmonic_" ++ toString idx))),
        ("school_active", Json.bool true),
        ("school_schoolName", school_name),
        ("school_trackingId", Json.str ("harmonic_" ++ linkedin_id ++ "_" ++ toString idx)),
        ("school_logoUrl", logo_url),
        ("startDate", start_date),
        ("endDate", end_date),
        ("schoolName", school_name),
        ("fieldOfStudy", jsonOr fieldRaw (Json.str "")),
        ("schoolUrn", Json.str (strOr school_urn ("urn:li:fs_miniSchool:harmonic_" ++ toString idx))),
        ("degreeName", degree)]

/-- Embedding of `HarmonicToBigQuerySync.transform_education`; the
`datetime.now().strftime` stamp is the `today` parameter. -/
def transform_education (education_list : Json) (linkedin_id today : String) :
    Except String (List Row) := do
  let entries ← education_list.asArr
  go 0 entries
where
  go : Nat → List Json → Except String (List Row)
    | _, [] => pure []
    | idx, edu :: rest => do
      let row ← transform_education_row linkedin_id today idx edu
      let rows ← go (idx + 1) rest
      pure (row :: rows)

/-- One row of `HarmonicToBigQuerySync.transform_experience` for the entry
at zero-based index `idx`; `company_linkedin_url` is computed by the source
but never written to the row, so it is evaluated for its exceptions only. -/
def transform_experience_row (linkedin_id today : String) (idx : Nat) (exp : Json) :
    Except String Row := do
  let company ← py_getD exp "company" (Json.obj [])
  let company_name ← py_getD company "name" (Json.str "")
  let logoRaw ← py_get company "logoUrl"
  let logo_url := jsonOr logoRaw (Json.str "")
  let socialsRaw ← py_get company "socials"
  let socials := jsonOr socialsRaw (Json.obj [])
  let linkedinRaw ← py_get socials "linkedin"
  let linkedin_info := jsonOr linkedinRaw (Json.obj [])
  let _company_linkedin_url ← py_getD linkedin_info "url" (Json.str "")
  let start_date ← parseDateField exp "startDate" (Json.str "")
  let end_date ← parseDateField exp "endDate" Json.null
  let entity_urn := "urn:li:fs_position:harmonic_" ++ linkedin_id ++ "_" ++ toString idx
  let company_id ← py_get company "id"
  let company_urn :=
    if jsonTruthy company_id then
      Json.str ("urn:li:fs_miniCompany:harmonic_" ++ jsonToPyStr company_id)
    else Json.null
  let description ← py_get exp "description"
  let title ← py_get exp "title"
  pure [("date", Json.str today),
        ("linkedinId", Json.str linkedin_id),
        ("entityUrn", Json.str entity_urn),
        ("companyName", company_name),
        ("startDate", start_date),
        ("endDate", end_date),
        ("description", description),
        ("title", title),
        ("companyUrn", company_urn),
        ("companyLogoUrl", logo_url),
        ("locationName", Json.null),
        ("geoLocationName", Json.null),
        ("geoUrn", Json.null),
        ("region", Json.null)]

/-- Embedding of `HarmonicToBigQuerySync.transform_experience`. -/
def transform_experience (experience_list : Json) (linkedin_id today : String) :
    Except String (List Row) := do
  let entries ← experience_list.asArr
  go 0 entries
where
  go : Nat → List Json → Except String (List Row)
    | _, [] => pure []
    | idx, exp :: rest => do
      let row ← transform_experience_row linkedin_id today idx exp
      let rows ← go (idx + 1) rest
      pure (row :: rows)

/-- The headline scan of `transform_profile`: the first experience entry
with a truthy `isCurrentPosition` decides the headline (None when its title
or company name is falsy), and the loop breaks there. -/
def findHeadline : List Json → Except String Json
  | [] => pure Json.null
  | exp :: rest => do
    let cur ← py_get exp "isCurrentPosition"
    if jsonTruthy cur then do
      let title ← py_getD exp "title" (Json.str "")
      let companyObj ← py_getD exp "company" (Json.obj [])
      let company ← py_getD companyObj "name" (Json.str "")
      if jsonTruthy title && jsonTruthy company then
        pure (Json.str (jsonToPyStr title ++ " at " ++ jsonToPyStr company))
      else
        pure Json.null
    else
      findHeadline rest

/-- The student scan of `transform_profile`: true when some education entry
has a truthy end date whose first four characters parse to a year at least
`currentYear` (parse failures are swallowed and the scan continues). -/
def findIsStudent (currentYear : Int) : List Json → Except String Bool
  | [] => pure false
  | edu :: rest => do
    let endDateV ← py_getD edu "endDate" (Json.str "")
    if jsonTruthy endDateV then
      match endDateV with
      | .str s =>
        match (s.take 4).toInt? with
        | some y => if currentYear ≤ y then pure true else findIsStudent currentYear rest
        | none => findIsStudent currentYear rest
      | _ => findIsStudent currentYear rest
    else
      findIsStudent currentYear rest

/-- Embedding of `HarmonicToBigQuerySync.transform_profile`; the
`datetime.now()` stamps are the `today` and `currentYear` parameters. -/
def transform_profile (harmonic_id : Int) (linkedin_id : String)
    (education_list experience_list : Json) (today : String) (currentYear : Int) :
    Except String Row := do
  let exps ← experience_list.asArr
  let headline ← findHeadline exps
  let edus ← education_list.asArr
  let is_student ← findIsStudent currentYear edus
  pure [("date", Json.str today),
        ("linkedinId", Json.str linkedin_id),
        ("industryName", Json.null),
        ("lastName", Json.null),
        ("locationName", Json.null),
        ("student", Json.bool is_student),
        ("geoCountryName", Json.null),
        ("geoCountryUrn", Json.null),
        ("geoLocationBackfilled", Json.bool false),
        ("elt", Json.bool false),
        ("industryUrn", Json.null),
        ("firstName", Json.null),
        ("entityUrn", Json.str ("urn:li:fs_profile:harmonic_" ++ toString harmonic_id)),
        ("geoLocation", Json.null),
        ("geoLocationName", Json.null),
        ("headline", headline),
        ("displayPictureUrl", Json.null),
        ("img_100_100", Json.null),
        ("img_200_200", Json.null),
        ("img_400_400", Json.null),
        ("img_800_800", Json.null),
        ("profile_id", Json.str (toString harmonic_id)),
        ("profile_urn", Json.str ("urn:li:fs_profile:harmonic_" ++ toString harmonic_id)),
        ("member_urn", Json.str ("urn:li:member:harmonic_" ++ toString harmonic_id)),
        ("public_id", Json.str linkedin_id)]

/-- Report slice for one destination table in the sync results dict. -/
structure TableReport where
  existsInDb : Bool
  inserted : Nat
  skipped : Bool
  deriving DecidableEq, Repr

/-- The results dict of `HarmonicToBigQuerySync.sync_person`. -/
structure SyncReport where
  harmonic_id : Int
  linkedin_id : String
  mapping : TableReport
  education : TableReport
  experience : TableReport
  profile : TableReport
  educationData : List Row
  experienceData : List Row
  profileData : Option Row
  errors : List String
  deriving Repr

/-- One BigQuery interaction performed by a sync run: an existence query
(`check_mapping_exists` / `check_user_exists`) or an `insert_rows_json`
call against a destination table. -/
inductive WhOp where
  | queryMappingExists (linkedin_id : String)
  | queryTableExists (table : String) (linkedin_id : String)
  | insertRows (table : String) (rows : List Row)
  deriving Repr

/-- The external world a sync run interacts with: the outcome of the
Harmonic `get_full_profile` fetch, the `get_linkedin_id_from_harmonic`
lookup (that helper catches its own exceptions and returns None instead of
raising), the answers of the warehouse existence queries, and whether each
`insert_rows_json` call reports errors (in which case the source counts
zero inserted). -/
structure SyncEnv where
  fetchOutcome : Except String Json
  linkedinInfo : Option (String × String)
  mappingExists : Bool
  eduExists : Bool
  expExists : Bool
  profExists : Bool
  mappingInsertErrs : Bool
  eduInsertErrs : Bool
  expInsertErrs : Bool
  profInsertErrs : Bool

/-- The mapping-table section of `sync_person`: check, skip when present,
dry-run counts one, otherwise `insert_mapping` (one row; zero on insert
errors). The mapping row itself cannot raise. -/
def syncMapping (lid : String) (existsInDb dry insertErrs : Bool) (row : Row) :
    List WhOp × TableReport :=
  if existsInDb then
    ([.queryMappingExists lid], { existsInDb := true, inserted := 0, skipped := true })
  else if dry then
    ([.queryMappingExists lid], { existsInDb := false, inserted := 1, skipped := false })
  else
    ([.queryMappingExists lid, .insertRows "linkedin_harmonic_mapping" [row]],
     { existsInDb := false, inserted := if insertErrs then 0 else 1, skipped := false })

/-- One exists-check-then-insert section of `sync_person` for a list table
(education or experience): existence query, the absolute skip rule, the
dry-run branch, and `insert_education` / `insert_experience` (which make no
BigQuery call on an empty row list and report zero on insert errors). A
transform exception propagates after the existence query has run. -/
def syncListTable (table lid : String) (existsInDb dry insertErrs : Bool)
    (transformed : Except String (List Row)) :
    List WhOp × Except String (TableReport × List Row) :=
  if existsInDb then
    ([.queryTableExists table lid], .ok ({ existsInDb := true, inserted := 0, skipped := true }, []))
  else
    match transformed with
    | .error e => ([.queryTableExists table lid], .error e)
    | .ok rows =>
      if dry then
        ([.queryTableExists table lid],
         .ok ({ existsInDb := false, inserted := rows.length, skipped := false }, rows))
      else if rows.isEmpty then
        ([.queryTableExists table lid],
         .ok ({ existsInDb := false, inserted := 0, skipped := false }, rows))
      else
        ([.queryTableExists table lid, .insertRows table rows],
         .ok ({ existsInDb := false, inserted := if insertErrs then 0 else rows.length,
                skipped := false }, rows))

/-- The profile-table section of `sync_person`: existence query, skip rule,
dry-run branch, and `insert_profile` (always one row; zero on insert
errors). -/
def syncProfileTable (lid : String) (existsInDb dry insertErrs : Bool)
    (transformed : Except String Row) :
    List WhOp × Except String (TableReport × Option Row) :=
  if existsInDb then
    ([.queryTableExists "linkedin_profile" lid],
     .ok ({ existsInDb := true, inserted := 0, skipped := true }, none))
  else
    match transformed with
    | .error e => ([.queryTableExists "linkedin_profile" lid], .error e)
    | .ok row =>
      if dry then
        ([.queryTableExists "linkedin_profile" lid],
         .ok ({ existsInDb := false, inserted := 1, skipped := false }, some row))
      else
        ([.queryTableExists "linkedin_profile" lid, .insertRows "linkedin_profile" [row]],
         .ok ({ existsInDb := false, inserted := if insertErrs then 0 else 1,
                skipped := false }, some row))

/-- The initial results dict of `sync_person`. -/
def initReport (harmonic_id : Int) (linkedin_id : String) : SyncReport :=
  { harmonic_id := harmonic_id, linkedin_id := linkedin_id,
    mapping := { existsInDb := false, inserted := 0, skipped := false },
    education := { existsInDb := false, inserted := 0, skipped := false },
    experience := { existsInDb := false, inserted := 0, skipped := false },
    profile := { existsInDb := false, inserted := 0, skipped := false },
    educationData := [], experienceData := [], profileData := none, errors := [] }

/-- Embedding of `HarmonicToBigQuerySync.sync_person`. The first component
collects the warehouse interactions in program order; the second is the
returned results dict, or the exception a transform raised (in Python an
uncaught exception aborts the call after the interactions already
performed). On a fetch failure the function returns immediately with the
error recorded and no warehouse interaction. -/
def sync_person (env : SyncEnv) (harmonic_id : Int) (linkedin_id : String)
    (today nowIso : String) (currentYear : Int) (dry_run : Bool) :
    List WhOp × Except String SyncReport :=
  match env.fetchOutcome with
  | .error e =>
    ([], .ok { initReport harmonic_id linkedin_id with
               errors := ["Failed to fetch from Harmonic: " ++ e] })
  | .ok profile_data =>
    match py_getD profile_data "education" (Json.arr []) with
    | .error e => ([], .error e)
    | .ok education_list =>
    match py_getD profile_data "experience" (Json.arr []) with
    | .error e => ([], .error e)
    | .ok experience_list =>
    let full_name := match env.linkedinInfo with
      | some info => Json.str info.2
      | none => Json.null
    let linkedin_url := "https://linkedin.com/in/" ++ linkedin_id
    let mappingRow : Row :=
      [("linkedin_id", Json.str linkedin_id), ("harmonic_id", Json.num harmonic_id),
       ("full_name", full_name), ("linkedin_url", Json.str linkedin_url),
       ("created_at", Json.str nowIso), ("updated_at", Json.str nowIso)]
    let mapRes := syncMapping linkedin_id env.mappingExists dry_run env.mappingInsertErrs mappingRow
    let eduRes := syncListTable "linkedin_education" linkedin_id env.eduExists dry_run
      env.eduInsertErrs (transform_education education_list linkedin_id today)
    match eduRes.2 with
    | .error e => (mapRes.1 ++ eduRes.1, .error e)
    | .ok eduOut =>
    let expRes := syncListTable "linkedin_experience" linkedin_id env.expExists dry_run
      env.expInsertErrs (transform_experience experience_list linkedin_id today)
    match expRes.2 with
    | .error e => (mapRes.1 ++ eduRes.1 ++ expRes.1, .error e)
    | .ok expOut =>
    let profRes := syncProfileTable linkedin_id env.profExists dry_run env.profInsertErrs
      (transform_profile harmonic_id linkedin_id education_list experience_list today currentYear)
    match profRes.2 with
    | .error e => (mapRes.1 ++ eduRes.1 ++ expRes.1 ++ profRes.1, .error e)
    | .ok profOut =>
      (mapRes.1 ++ eduRes.1 ++ expRes.1 ++ profRes.1,
       .ok { harmonic_id := harmonic_id, linkedin_id := linkedin_id,
             mapping := mapRes.2, education := eduOut.1, experience := expOut.1,
             profile := profOut.1, educationData := eduOut.2, experienceData := expOut.2,
             profileData := profOut.2, errors := [] })

/-- The `insert_rows_json` calls a run performed against one table. -/
def insertsFor (table : String) (ops : List WhOp) : List (List Row) :=
  ops.filterMap fun op =>
    match op with
    | .insertRows t rows => if t = table then some rows else none
    | _ => none

/-- The loop invariant of the batch accumulator: the records aggregated in
`all_edges` are exactly the flushed batches followed by the buffered
remainder. -/
def batchInv (st : LoopState) : Prop :=
  st.allEdges = flushedConcat st.batcher.flushes ++ st.batcher.currentBatch


/-- The state after one successful page of content `edges` reporting
`totalCount = tc`, just before the pagination decision. -/
def stepState (st : LoopState) (edges : List Json) (tc : Json) (bs : Nat) : LoopState :=
  { payload := st.payload, allEdges := st.allEdges ++ edges,
    totalCount := if st.totalCount.isNull then tc else st.totalCount,
    page := st.page,
    batcher := maybeFlush bs
      { currentBatch := st.batcher.currentBatch ++ edges,
        batchNumber := st.batcher.batchNumber, flushes := st.batcher.flushes },
    notes := st.notes ++ [], fetches := st.fetches + 1 }


/-- The state after an iteration hit the 401/403 branch of the error check:
one auth-failure notification appended, nothing else changed. -/
def authStepState (s : Nat) (st : LoopState) : LoopState :=
  { st with
    fetches := st.fetches + 1,
    notes := st.notes ++
      [Notification.authFailure
        ("HTTP " ++ toString s ++ ": Authentication/authorization failed")] }


/-- A two-response scenario: page 1 succeeds with one record and
`hasNextPage = true`; the page-2 request comes back HTTP 401. -/
def c1run : Except String FetchOutcome :=
  get_company_saved_search_results
    [(200, mkPageBody [Json.str "co"] (Json.num 7) true "cur1"), (401, Json.obj [])]
    payload0 5 200


/-- Concrete three-page run for the C3 witness: pages of sizes 2, 2 and 1
with capacity 2 flush two full batches and one remainder. -/
def c3run : Except String FetchOutcome :=
  get_company_saved_search_results
    [(200, mkPageBody [Json.num 1, Json.num 2] (Json.num 7) true "c1"),
     (200, mkPageBody [Json.num 3, Json.num 4] (Json.num 7) true "c2"),
     (200, mkPageBody [Json.num 5] (Json.num 7) false "c3")]
    payload0 10 2

def c3out : FetchOutcome := c3run.toOption.getD default


def c4run : Except String FetchOutcome :=
  get_company_saved_search_results [(200, mkPageBody [Json.num 1] Json.null true "c")]
    payload0 1 200

def c4out : FetchOutcome := c4run.toOption.getD default


def c5run : Except String FetchOutcome :=
  get_company_saved_search_results
    [(200, mkPageBody [] (Json.num 7) true "c1"),
     (200, mkPageBody [] (Json.num 99) false "c2")]
    payload0 10 5

def c5out : FetchOutcome := c5run.toOption.getD default


/-- A fetched profile with one education entry and no experience, for the
C9 witness. -/
def pd9 : Json :=
  Json.obj [("education", Json.arr [Json.obj [("school", Json.obj [("name", Json.str "MIT")]),
    ("degree", Json.str "BS"), ("endDate", Json.str "2027-06-01")]]),
   ("experience", Json.arr [])]

def env9 : SyncEnv :=
  { fetchOutcome := .ok pd9, linkedinInfo := some ("daniel", "Daniel Sun"),
    mappingExists := false, eduExists := true, expExists := true, profExists := true,
    mappingInsertErrs := false, eduInsertErrs := false, expInsertErrs := false,
    profInsertErrs := false }

def sync9 : List WhOp × Except String SyncReport :=
  sync_person env9 36601930 "daniel" "2026-10-12" "ts" 2026 false

def rep9 : SyncReport := sync9.2.toOption.getD (initReport 36601930 "daniel")


def env10 : SyncEnv :=
  { fetchOutcome := .error "boom", linkedinInfo := none, mappingExists := false,
    eduExists := false, expExists := false, profExists := false, mappingInsertErrs := false,
    eduInsertErrs := false, expInsertErrs := false, profInsertErrs := false }

lemma flushedConcat_append (a b : List (Nat × List Json)) :
    flushedConcat (a ++ b) = flushedConcat a ++ flushedConcat b := by
  simp [flushedConcat]

lemma flushedConcat_single (n : Nat) (rows : List Json) :
    flushedConcat [(n, rows)] = rows := by
  simp [flushedConcat]

lemma maybeFlush_concat (bs : Nat) (b : BatchSt) :
    flushedConcat (maybeFlush bs b).flushes ++ (maybeFlush bs b).currentBatch
      = flushedConcat b.flushes ++ b.currentBatch := by
  unfold maybeFlush
  split
  · simp [flushedConcat_append, flushedConcat_single]
  · rfl

lemma finalFlushes_concat (b : BatchSt) :
    flushedConcat (finalFlushes b) = flushedConcat b.flushes ++ b.currentBatch := by
  unfold finalFlushes
  split
  · rename_i hemp
    simp only [List.isEmpty_iff] at hemp
    simp [hemp]
  · simp [flushedConcat_append, flushedConcat_single]

lemma finishLoop_concat (st : LoopState) (r : TerminalReason) (h : batchInv st) :
    (finishLoop st r).companies = flushedConcat (finishLoop st r).flushes := by
  simpa [finishLoop, finalFlushes_concat, batchInv] using h

lemma batchInv_extend_flush (st : LoopState) (pay tcv : Json) (edges : List Json)
    (notes2 : List Notification) (pg fe bs : Nat) (hinv : batchInv st) :
    batchInv
      { payload := pay, allEdges := st.allEdges ++ edges, totalCount := tcv, page := pg,
        batcher := maybeFlush bs
          { currentBatch := st.batcher.currentBatch ++ edges,
            batchNumber := st.batcher.batchNumber, flushes := st.batcher.flushes },
        notes := notes2, fetches := fe } := by
  unfold batchInv at hinv ⊢
  have hm := maybeFlush_concat bs
    { currentBatch := st.batcher.currentBatch ++ edges,
      batchNumber := st.batcher.batchNumber, flushes := st.batcher.flushes }
  simp only at hm ⊢
  rw [hm]
  simp [hinv, List.append_assoc]

/-- Every record appended during the loop ends up in exactly one flushed
batch, in order: the invariant propagated through `fetch_pages`. -/
lemma fetch_pages_concat (mp bs : Nat) :
    ∀ (rs : List (Nat × Json)) (st : LoopState) (out : FetchOutcome),
      batchInv st → fetch_pages mp bs rs st = .ok out →
      out.companies = flushedConcat out.flushes := by
  intro rs
  induction rs with
  | nil =>
    intro st out _ h
    simp [fetch_pages] at h
  | cons r rest ih =>
    intro st out hinv h
    obtain ⟨sc, d⟩ := r
    simp only [fetch_pages] at h
    split at h
    · cases h
      exact finishLoop_concat _ _ hinv
    · split at h
      · cases h
      case _ dataField _ =>
      split at h
      · cases h
      case _ savedSearch _ =>
      split at h
      · cases h
      case _ searchCompanies _ =>
      split at h
      · cases h
      case _ edgesVal _ =>
      split at h
      · cases h
      case _ edges _ =>
      split at h
      · cases h
      case _ tc _ =>
      split at h
      · cases h
      case _ pageInfo _ =>
      split at h
      · cases h
      case _ hasNextPage _ =>
      have hinv5 := batchInv_extend_flush st st.payload
        (if st.totalCount.isNull then tc else st.totalCount) edges
        (st.notes ++ (check_and_notify_error sc d).2) st.page (st.fetches + 1) bs hinv
      split at h
      · cases h
        exact finishLoop_concat _ _ hinv5
      · split at h
        · cases h
          exact finishLoop_concat _ _ hinv5
        · split at h
          · cases h
          case _ endCursor _ =>
          split at h
          · cases h
          case _ payload2 _ =>
          exact ih _ out (batchInv_extend_flush st payload2
            (if st.totalCount.isNull then tc else st.totalCount) edges
            (st.notes ++ (check_and_notify_error sc d).2) (st.page + 1) (st.fetches + 1) bs hinv) h

/-- Once `total_count` holds a non-None value, no later iteration of the
loop changes it: the conditional assignment
`if total_count is None: total_count = ...` is the only write. -/
lemma fetch_pages_total_mono (mp bs : Nat) :
    ∀ (rs : List (Nat × Json)) (st : LoopState) (out : FetchOutcome),
      st.totalCount.isNull = false → fetch_pages mp bs rs st = .ok out →
      out.totalCount = st.totalCount := by
  intro rs
  induction rs with
  | nil =>
    intro st out _ h
    simp [fetch_pages] at h
  | cons r rest ih =>
    intro st out hnn h
    obtain ⟨sc, d⟩ := r
    simp only [fetch_pages] at h
    split at h
    · cases h
      simp [finishLoop]
    · split at h
      · cases h
      case _ dataField _ =>
      split at h
      · cases h
      case _ savedSearch _ =>
      split at h
      · cases h
      case _ searchCompanies _ =>
      split at h
      · cases h
      case _ edgesVal _ =>
      split at h
      · cases h
      case _ edges _ =>
      split at h
      · cases h
      case _ tc _ =>
      split at h
      · cases h
      case _ pageInfo _ =>
      split at h
      · cases h
      case _ hasNextPage _ =>
      split at h
      · cases h
        simp [finishLoop, hnn]
      · split at h
        · cases h
          simp [finishLoop, hnn]
        · split at h
          · cases h
          case _ endCursor _ =>
          split at h
          · cases h
          case _ payload2 _ =>
          simpa [hnn] using ih _ out (by simp [hnn]) h

lemma lookupField_setKey (fields : List (String × Json)) (k : String) (v : Json) :
    lookupField (setKey fields k v) k = some v := by
  induction fields with
  | nil => simp [setKey, lookupField]
  | cons kv rest ih =>
    obtain ⟨k0, v0⟩ := kv
    by_cases hk : k0 = k
    · simp [setKey, hk, lookupField]
    · simp [setKey, hk, lookupField, ih]

/-- The cursor assignment succeeds on a payload with an object-shaped
`variables` entry and preserves that shape. -/
lemma setCursor_hasVars (p c : Json) (hp : hasVarsObj p = true) :
    ∃ q, setCursor p c = .ok q ∧ hasVarsObj q = true := by
  unfold hasVarsObj at hp
  cases p with
  | obj fields =>
    simp only [Json.getField?] at hp
    cases hv : lookupField fields "variables" with
    | none => rw [hv] at hp; simp at hp
    | some v =>
      rw [hv] at hp
      cases v with
      | obj vars =>
        refine ⟨Json.obj (setKey fields "variables" (Json.obj (setKey vars "after" c))), ?_, ?_⟩
        · simp [setCursor, hv]
        · simp [hasVarsObj, Json.getField?, lookupField_setKey]
      | null => simp at hp
      | bool b => simp at hp
      | num n => simp at hp
      | str s => simp at hp
      | arr items => simp at hp
  | null => simp [Json.getField?] at hp
  | bool b => simp [Json.getField?] at hp
  | num n => simp [Json.getField?] at hp
  | str s => simp [Json.getField?] at hp
  | arr items => simp [Json.getField?] at hp

/-- One iteration on a well-formed page with `hasNextPage = true`. -/
lemma fetch_pages_step_hasNext (mp bs : Nat) (edges : List Json) (tc : Json) (cur : String)
    (rest : List (Nat × Json)) (st : LoopState) :
    fetch_pages mp bs ((200, mkPageBody edges tc true cur) :: rest) st
      = (if mp ≤ st.page then
           Except.ok (finishLoop (stepState st edges tc bs) .pageLimitReached)
         else
           match setCursor st.payload (Json.str cur) with
           | .error e => .error e
           | .ok payload2 =>
             fetch_pages mp bs rest
               { stepState st edges tc bs with payload := payload2, page := st.page + 1 }) := rfl

/-- One iteration on a well-formed page with `hasNextPage = false`. -/
lemma fetch_pages_step_noNext (mp bs : Nat) (edges : List Json) (tc : Json) (cur : String)
    (rest : List (Nat × Json)) (st : LoopState) :
    fetch_pages mp bs ((200, mkPageBody edges tc false cur) :: rest) st
      = Except.ok (finishLoop (stepState st edges tc bs) .exhausted) := rfl

/-- One iteration on an HTTP 401 or 403 response: one auth-failure
notification is dispatched and the loop breaks with everything else
untouched. -/
lemma fetch_pages_step_auth (mp bs s : Nat) (body : Json) (rest : List (Nat × Json))
    (st : LoopState) (hs : s = 401 ∨ s = 403) :
    fetch_pages mp bs ((s, body) :: rest) st
      = Except.ok (finishLoop (authStepState s st) .error) := by
  rcases hs with h | h <;> subst h <;> rfl

/-- When every page reports `hasNextPage = true`, the loop stops only at the
`max_pages` ceiling: with `st.page + k = max_pages + 1` pages left to serve,
it performs exactly `k` more fetches and ends with the page counter at
`max_pages`. -/
lemma fetch_pages_page_limit (mp bs : Nat) :
    ∀ (ps : List (List Json × Json × String)) (st : LoopState),
      ps ≠ [] → hasVarsObj st.payload = true → st.page + ps.length = mp + 1 →
      exceptMap (fun o : FetchOutcome => (o.fetches, o.pagesFetched, o.reason))
        (fetch_pages mp bs (ps.map fun q => (200, mkPageBody q.1 q.2.1 true q.2.2)) st)
        = .ok (st.fetches + ps.length, mp, .pageLimitReached) := by
  intro ps
  induction ps with
  | nil =>
    intro st hne _ _
    exact absurd rfl hne
  | cons q rest ih =>
    intro st hne hp hpage
    obtain ⟨edges, tc, cur⟩ := q
    rw [List.map_cons, fetch_pages_step_hasNext]
    cases rest with
    | nil =>
      have hpg : st.page = mp := by simpa using hpage
      rw [if_pos (by omega)]
      simp [exceptMap, finishLoop, stepState, hpg]
    | cons q2 rest2 =>
      rw [if_neg (by simp only [List.length_cons] at hpage; omega)]
      obtain ⟨pay2, hsc, hp2⟩ := setCursor_hasVars st.payload (Json.str cur) hp
      rw [hsc]
      have happ := ih { stepState st edges tc bs with payload := pay2, page := st.page + 1 }
        (by simp) (by simpa using hp2)
        (by show st.page + 1 + (q2 :: rest2).length = mp + 1
            simp only [List.length_cons] at hpage ⊢
            omega)
      rw [happ]
      show Except.ok (st.fetches + 1 + (q2 :: rest2).length, mp, TerminalReason.pageLimitReached)
        = Except.ok (st.fetches + ((edges, tc, cur) :: q2 :: rest2).length, mp, .pageLimitReached)
      simp only [List.length_cons, Except.ok.injEq, Prod.mk.injEq]
      exact ⟨by omega, trivial⟩

/-- C1 counterexample: on an HTTP 401 at page 2 of a 5-page fetch the
returned `pages_fetched` field is 2, not 1 as the claim states — the page
counter is incremented past the successful page 1 before the failing
fetch, and the source returns that counter. -/
theorem C1_counterexample :
    exceptMap (fun o : FetchOutcome => o.pagesFetched) c1run = .ok 2 ∧
    exceptMap (fun o : FetchOutcome => o.pagesFetched) c1run ≠ .ok 1 := by
  refine ⟨rfl, ?_⟩
  intro h
  rw [show exceptMap (fun o : FetchOutcome => o.pagesFetched) c1run = .ok 2 from rfl] at h
  simp at h

/-- C1 (amended): an HTTP 401 on page 2 of a multi-page fetch
(`max_pages ≥ 2`) stops the loop with terminal reason `error`, dispatches
exactly one auth-failure notification, and returns a result whose
`pages_fetched` field equals 2: the counter counts the attempted page, not
only the pages that succeeded. -/
theorem C1_auth_short_circuit (edges : List Json) (tc body2 payload : Json) (cur : String)
    (mp bs : Nat) (hmp : 2 ≤ mp) (hp : hasVarsObj payload = true) :
    exceptMap (fun o : FetchOutcome => (o.pagesFetched, o.reason, o.notes))
      (get_company_saved_search_results
        [(200, mkPageBody edges tc true cur), (401, body2)] payload mp bs)
      = .ok (2, .error,
          [Notification.authFailure "HTTP 401: Authentication/authorization failed"]) := by
  unfold get_company_saved_search_results
  rw [fetch_pages_step_hasNext]
  rw [if_neg (show ¬ mp ≤ (initState payload).page by simp [initState]; omega)]
  obtain ⟨pay2, hsc, _⟩ := setCursor_hasVars (initState payload).payload (Json.str cur)
    (by simpa [initState] using hp)
  rw [hsc]
  show exceptMap (fun o : FetchOutcome => (o.pagesFetched, o.reason, o.notes))
      (fetch_pages mp bs [(401, body2)]
        { stepState (initState payload) edges tc bs with
          payload := pay2, page := (initState payload).page + 1 })
      = .ok (2, .error,
          [Notification.authFailure "HTTP 401: Authentication/authorization failed"])
  rw [fetch_pages_step_auth mp bs 401 body2 [] _ (Or.inl rfl)]
  rfl

theorem C1_witness :
    exceptMap (fun o : FetchOutcome => (o.pagesFetched, o.reason, o.notes)) c1run
      = .ok (2, .error,
          [Notification.authFailure "HTTP 401: Authentication/authorization failed"]) :=
  C1_auth_short_circuit [Json.str "co"] (Json.num 7) (Json.obj []) payload0 "cur1" 5 200
    (by omega) (by rfl)

/-- C2 counterexample: a 200 response that passes the error check but whose
results object has no `edges` entry makes the fetch raise a `KeyError`
instead of being treated as a zero-length page. -/
theorem C2_counterexample :
    get_company_saved_search_results
      [(200, wrapResults (Json.obj [("totalCount", Json.num 5),
         ("pageInfo", Json.obj [("hasNextPage", Json.bool false)])]))] payload0 100 200
      = .error "KeyError: edges" := rfl

lemma check_wrapResults (r : Json) :
    check_and_notify_error 200 (wrapResults r) = (false, []) := rfl

lemma extract_data_wrap (r : Json) :
    jsonIndex (wrapResults r) "data"
      = .ok (Json.obj [("getSavedSearch", Json.obj [("results", r)])]) := rfl

lemma extract_gss (r : Json) :
    jsonIndex (Json.obj [("getSavedSearch", Json.obj [("results", r)])]) "getSavedSearch"
      = .ok (Json.obj [("results", r)]) := rfl

lemma extract_results (r : Json) :
    jsonIndex (Json.obj [("results", r)]) "results" = .ok r := rfl

/-- C2 (amended): for a response passing the error check, only a missing
`totalCount` is tolerated (the aggregate total stays null); a missing
`edges` list raises `KeyError` and so does a missing `pageInfo` — neither
is treated as a zero-length page or as `hasNext = false`. -/
theorem C2_missing_field_handling :
    (∀ (fs : List (String × Json)) (payload : Json) (mp bs : Nat),
        lookupField fs "edges" = none →
        exceptOk (get_company_saved_search_results
          [(200, wrapResults (Json.obj fs))] payload mp bs) = false) ∧
    (∀ (fs : List (String × Json)) (edges : List Json) (payload : Json) (mp bs : Nat),
        lookupField fs "edges" = some (Json.arr edges) →
        lookupField fs "pageInfo" = none →
        exceptOk (get_company_saved_search_results
          [(200, wrapResults (Json.obj fs))] payload mp bs) = false) ∧
    (∀ (edges : List Json) (cur : String) (payload : Json) (mp bs : Nat),
        exceptMap (fun o : FetchOutcome => o.totalCount)
          (get_company_saved_search_results
            [(200, wrapResults (Json.obj [("edges", Json.arr edges),
               ("pageInfo", Json.obj [("hasNextPage", Json.bool false),
                                      ("endCursor", Json.str cur)])]))]
            payload mp bs) = .ok Json.null) := by
  refine ⟨?_, ?_, ?_⟩
  · intro fs payload mp bs h
    simp only [get_company_saved_search_results, fetch_pages, check_wrapResults,
      extract_data_wrap, extract_gss, extract_results]
    simp [jsonIndex, h, exceptOk]
  · intro fs edges payload mp bs h1 h2
    simp only [get_company_saved_search_results, fetch_pages, check_wrapResults,
      extract_data_wrap, extract_gss, extract_results]
    simp [jsonIndex, h1, h2, exceptOk, Json.asArr, py_get]
  · intro edges cur payload mp bs
    rfl

theorem C2_witness :
    exceptOk (get_company_saved_search_results
      [(200, wrapResults (Json.obj [("totalCount", Json.num 5)]))] payload0 7 3) = false ∧
    exceptMap (fun o : FetchOutcome => o.totalCount)
      (get_company_saved_search_results
        [(200, wrapResults (Json.obj [("edges", Json.arr []),
           ("pageInfo", Json.obj [("hasNextPage", Json.bool false),
                                  ("endCursor", Json.str "c")])]))] payload0 7 3)
      = .ok Json.null :=
  ⟨C2_missing_field_handling.1 [("totalCount", Json.num 5)] payload0 7 3 rfl,
   C2_missing_field_handling.2.2 [] "c" payload0 7 3⟩

/-- C6: the pacer draws a long break from `[180, 300)` once three minutes
have elapsed since the reference point, and a short delay from `[2, 8)`
otherwise — but the last-long-break reference of the loop is never actually
reset (the assignment in `_apply_human_like_delay` rebinds a local
parameter), so a delay taken ten seconds after a long break is drawn long
again, where the claimed contract requires it to be short. The second
trace follows the claimed reset semantics for comparison. -/
theorem C6_pacer_reset_lost :
    clientDelayTrace 0 [180, 190]
        = [{ lo := 180, hi := 300, kind := .long }, { lo := 180, hi := 300, kind := .long }] ∧
    specDelayTrace 0 [180, 190]
        = [{ lo := 180, hi := 300, kind := .long }, { lo := 2, hi := 8, kind := .short }] :=
  ⟨rfl, rfl⟩

/-- C7 counterexample: an HTTP 500 response raises nothing — there is no
`TransportError` anywhere in this client; the body is processed as a
normal page (its record is extracted, the loop ends `exhausted`, and no
notification is dispatched). -/
theorem C7_counterexample :
    exceptMap (fun o : FetchOutcome => (o.reason, o.companies, o.notes))
      (get_company_saved_search_results
        [(500, mkPageBody [Json.str "x"] (Json.num 1) false "c")] payload0 100 200)
      = .ok (.exhausted, [Json.str "x"], []) := rfl

/-- C7 (amended): HTTP 401 or 403 dispatches exactly one auth-failure
notification and stops the fetch loop without retry (one request, terminal
reason `error`) — no `AuthError` exception is raised; any other status is
not classified at all: `_check_and_notify_error` reports no error for a
body without a top-level errors entry, and no `TransportError` is
raised. -/
theorem C7_status_handling :
    (∀ (s : Nat) (body payload : Json) (mp bs : Nat), s = 401 ∨ s = 403 →
        exceptMap (fun o : FetchOutcome => (o.reason, o.pagesFetched, o.fetches, o.notes))
          (get_company_saved_search_results [(s, body)] payload mp bs)
          = .ok (.error, 1, 1,
              [Notification.authFailure
                ("HTTP " ++ toString s ++ ": Authentication/authorization failed")])) ∧
    (∀ (s : Nat) (data : Json), ¬ (s = 401 ∨ s = 403) → data.getField? "errors" = none →
        check_and_notify_error s data = (false, [])) := by
  constructor
  · intro s body payload mp bs hs
    unfold get_company_saved_search_results
    rw [fetch_pages_step_auth mp bs s body [] (initState payload) hs]
    rfl
  · intro s data hs herr
    unfold check_and_notify_error
    rw [if_neg hs]
    simp [herr]

theorem C7_witness :
    exceptMap (fun o : FetchOutcome => (o.reason, o.pagesFetched, o.fetches, o.notes))
      (get_company_saved_search_results [(403, Json.obj [])] payload0 9 4)
      = .ok (.error, 1, 1,
          [Notification.authFailure "HTTP 403: Authentication/authorization failed"]) ∧
    check_and_notify_error 500 (Json.obj [("data", Json.null)]) = (false, []) := by
  constructor
  · exact C7_status_handling.1 403 (Json.obj []) payload0 9 4 (Or.inr rfl)
  · exact C7_status_handling.2 500 (Json.obj [("data", Json.null)]) (by decide) rfl

/-- C8 counterexample: `get_person_highlights` returns the empty list when
the parsed body has a top-level errors entry — it returns a default value
instead of raising. -/
theorem C8_counterexample :
    get_person_highlights_result (Json.obj [("errors", Json.arr [Json.str "boom"])])
      = .ok [] := rfl

/-- C8 (amended): the education, experience, profile-detail and search
operations treat a top-level errors entry as fatal and raise to their
caller; the profile-header/highlights operation does not — it returns the
empty list instead. -/
theorem C8_graphql_errors_fatal (data : Json) (h : hasErrorsKey data = true) :
    exceptOk (get_education_result data) = false ∧
    exceptOk (get_experience_result data) = false ∧
    exceptOk (get_person_education_result data) = false ∧
    exceptOk (search_op_result data) = false ∧
    get_person_highlights_result data = .ok [] := by
  simp [get_education_result, get_experience_result, get_person_education_result,
    search_op_result, get_person_highlights_result, h, exceptOk]

/-- C3: for every batch capacity at least 1 and every response stream, when
the fetch returns, concatenating all flushed batches (the in-loop
full-batch flushes plus the final remainder flush) in flush order yields
exactly the aggregated record sequence `all_edges` — no record lost, none
duplicated, order preserved. -/
theorem C3_batch_completeness (responses : List (Nat × Json)) (payload : Json)
    (max_pages batchSize : Nat) (_hbs : 1 ≤ batchSize) (out : FetchOutcome)
    (h : get_company_saved_search_results responses payload max_pages batchSize = .ok out) :
    flushedConcat out.flushes = out.companies := by
  have hinv : batchInv (initState payload) := by
    simp [batchInv, initState, flushedConcat]
  exact (fetch_pages_concat max_pages batchSize responses (initState payload) out hinv h).symm

theorem C3_witness : flushedConcat c3out.flushes = c3out.companies :=
  C3_batch_completeness
    [(200, mkPageBody [Json.num 1, Json.num 2] (Json.num 7) true "c1"),
     (200, mkPageBody [Json.num 3, Json.num 4] (Json.num 7) true "c2"),
     (200, mkPageBody [Json.num 5] (Json.num 7) false "c3")]
    payload0 10 2 (by omega) c3out (by rfl)

/-- C4: with `max_pages = N ≥ 1` and every page reporting
`hasNextPage = true`, the loop performs exactly `N` HTTP fetches and stops
with terminal reason `page-limit-reached` and page counter `N`; in
particular `N = 1` performs exactly one fetch, and any non-empty remainder
is flushed after the loop (a run with records always has a flush). -/
theorem C4_termination_determinism (ps : List (List Json × Json × String)) (payload : Json)
    (N bs : Nat) (hN : 1 ≤ N) (hlen : ps.length = N) (hp : hasVarsObj payload = true) :
    exceptMap (fun o : FetchOutcome => (o.fetches, o.pagesFetched, o.reason))
      (get_company_saved_search_results
        (ps.map fun q => (200, mkPageBody q.1 q.2.1 true q.2.2)) payload N bs)
      = .ok (N, N, .pageLimitReached) ∧
    (∀ out, get_company_saved_search_results
        (ps.map fun q => (200, mkPageBody q.1 q.2.1 true q.2.2)) payload N bs = .ok out →
      out.companies ≠ [] → out.flushes ≠ []) := by
  constructor
  · have h := fetch_pages_page_limit N bs ps (initState payload)
      (by intro hnil; rw [hnil] at hlen; simp at hlen; omega)
      (by simpa [initState] using hp)
      (by simp [initState, hlen]; omega)
    simpa [get_company_saved_search_results, initState, hlen] using h
  · intro out hout hne hfl
    have hout2 : fetch_pages N bs
        (ps.map fun q => (200, mkPageBody q.1 q.2.1 true q.2.2)) (initState payload)
        = .ok out := hout
    have hcc := fetch_pages_concat N bs _ (initState payload) out
      (by simp [batchInv, initState, flushedConcat]) hout2
    rw [hfl] at hcc
    simp [flushedConcat] at hcc
    exact hne hcc

theorem C4_witness :
    exceptMap (fun o : FetchOutcome => (o.fetches, o.pagesFetched, o.reason)) c4run
        = .ok (1, 1, .pageLimitReached) ∧
    c4out.flushes ≠ [] := by
  have h := C4_termination_determinism [([Json.num 1], Json.null, "c")] payload0 1 200
    (by omega) (by rfl) (by rfl)
  exact ⟨h.1, h.2 c4out (by rfl) (List.cons_ne_nil _ _)⟩

/-- C5: the aggregate total count is write-once. Part one: once the loop
state holds a non-None `total_count`, the returned total equals it no
matter what later pages report. Part two: a first page reporting a
non-null `totalCount` fixes the returned total for the whole run. -/
theorem C5_total_count_stability :
    (∀ (mp bs : Nat) (rs : List (Nat × Json)) (st : LoopState) (out : FetchOutcome),
        st.totalCount.isNull = false → fetch_pages mp bs rs st = .ok out →
        out.totalCount = st.totalCount) ∧
    (∀ (edges : List Json) (tc : Json) (hn : Bool) (cur : String)
        (rest : List (Nat × Json)) (payload : Json) (mp bs : Nat) (out : FetchOutcome),
        tc.isNull = false →
        get_company_saved_search_results ((200, mkPageBody edges tc hn cur) :: rest)
          payload mp bs = .ok out →
        out.totalCount = tc) := by
  constructor
  · intro mp bs rs st out h1 h2
    exact fetch_pages_total_mono mp bs rs st out h1 h2
  · intro edges tc hn cur rest payload mp bs out htc hout
    have hout2 : fetch_pages mp bs ((200, mkPageBody edges tc hn cur) :: rest)
        (initState payload) = .ok out := hout
    cases hn with
    | false =>
      rw [fetch_pages_step_noNext] at hout2
      cases hout2
      simp [finishLoop, stepState, initState, Json.isNull]
    | true =>
      rw [fetch_pages_step_hasNext] at hout2
      split at hout2
      · cases hout2
        simp [finishLoop, stepState, initState, Json.isNull]
      · split at hout2
        · cases hout2
        case _ pay2 _ =>
          have hmono := fetch_pages_total_mono mp bs rest
            { stepState (initState payload) edges tc bs with
              payload := pay2, page := (initState payload).page + 1 } out htc hout2
          exact hmono

theorem C5_witness : c5out.totalCount = Json.num 7 :=
  C5_total_count_stability.2 [] (Json.num 7) true "c1"
    [(200, mkPageBody [] (Json.num 99) false "c2")] payload0 10 5 c5out (by rfl) (by rfl)

theorem C8_witness :
    exceptOk (get_education_result (Json.obj [("errors", Json.arr [Json.str "x"])])) = false ∧
    exceptOk (get_experience_result (Json.obj [("errors", Json.arr [Json.str "x"])])) = false ∧
    exceptOk (get_person_education_result (Json.obj [("errors", Json.arr [Json.str "x"])])) = false ∧
    exceptOk (search_op_result (Json.obj [("errors", Json.arr [Json.str "x"])])) = false ∧
    get_person_highlights_result (Json.obj [("errors", Json.arr [Json.str "x"])]) = .ok [] :=
  C8_graphql_errors_fatal (Json.obj [("errors", Json.arr [Json.str "x"])]) (by rfl)

lemma insertsFor_append (t : String) (a b : List WhOp) :
    insertsFor t (a ++ b) = insertsFor t a ++ insertsFor t b := by
  simp [insertsFor]

lemma insertsFor_syncMapping (t lid : String) (e d i : Bool) (row : Row)
    (h : t ≠ "linkedin_harmonic_mapping") :
    insertsFor t (syncMapping lid e d i row).1 = [] := by
  have h2 : ("linkedin_harmonic_mapping" : String) ≠ t := Ne.symm h
  unfold syncMapping
  split
  · simp [insertsFor]
  · split
    · simp [insertsFor]
    · simp [insertsFor, h2]

lemma insertsFor_syncListTable (t table lid : String) (e d i : Bool)
    (tr : Except String (List Row)) (h : e = true ∨ table ≠ t) :
    insertsFor t (syncListTable table lid e d i tr).1 = [] := by
  unfold syncListTable
  rcases h with he | hne
  · rw [he]
    simp [insertsFor]
  · split
    · simp [insertsFor]
    · split
      · simp [insertsFor]
      · split
        · simp [insertsFor]
        · split
          · simp [insertsFor]
          · simp [insertsFor, hne]

lemma insertsFor_syncProfileTable (t lid : String) (e d i : Bool) (tr : Except String Row)
    (h : e = true ∨ ("linkedin_profile" : String) ≠ t) :
    insertsFor t (syncProfileTable lid e d i tr).1 = [] := by
  unfold syncProfileTable
  rcases h with he | hne
  · rw [he]
    simp [insertsFor]
  · split
    · simp [insertsFor]
    · split
      · simp [insertsFor]
      · split
        · simp [insertsFor]
        · simp [insertsFor, hne]

lemma insertsFor_nil (t : String) : insertsFor t [] = [] := rfl

lemma insertsFor_query (t table lid : String) :
    insertsFor t [WhOp.queryTableExists table lid] = [] := rfl

lemma insertsFor_cons_query (t table lid : String) (ops : List WhOp) :
    insertsFor t (WhOp.queryTableExists table lid :: ops) = insertsFor t ops := rfl

lemma insertsFor_cons_queryMapping (t lid : String) (ops : List WhOp) :
    insertsFor t (WhOp.queryMappingExists lid :: ops) = insertsFor t ops := rfl

lemma syncListTable_skip (table lid : String) (d i : Bool) (tr : Except String (List Row)) :
    syncListTable table lid true d i tr
      = ([.queryTableExists table lid],
         .ok ({ existsInDb := true, inserted := 0, skipped := true }, [])) := rfl

lemma syncProfileTable_skip (lid : String) (d i : Bool) (tr : Except String Row) :
    syncProfileTable lid true d i tr
      = ([.queryTableExists "linkedin_profile" lid],
         .ok ({ existsInDb := true, inserted := 0, skipped := true }, none)) := rfl

/-- C9: for each destination table (education, experience, profile), if the
existence check for the natural key answers true, the sync performs zero
inserts into that table, runs no transform for it (its data slot stays
empty), and reports it skipped — whatever the fetched profile contains and
whatever happens in the other sections. -/
theorem C9_sync_skip (env : SyncEnv) (pd : Json) (hid : Int) (lid today nowIso : String)
    (cy : Int) (dry : Bool) (hfetch : env.fetchOutcome = .ok pd) :
    (env.eduExists = true →
        insertsFor "linkedin_education" (sync_person env hid lid today nowIso cy dry).1 = [] ∧
        ∀ r, (sync_person env hid lid today nowIso cy dry).2 = .ok r →
          r.education = { existsInDb := true, inserted := 0, skipped := true } ∧
          r.educationData = []) ∧
    (env.expExists = true →
        insertsFor "linkedin_experience" (sync_person env hid lid today nowIso cy dry).1 = [] ∧
        ∀ r, (sync_person env hid lid today nowIso cy dry).2 = .ok r →
          r.experience = { existsInDb := true, inserted := 0, skipped := true } ∧
          r.experienceData = []) ∧
    (env.profExists = true →
        insertsFor "linkedin_profile" (sync_person env hid lid today nowIso cy dry).1 = [] ∧
        ∀ r, (sync_person env hid lid today nowIso cy dry).2 = .ok r →
          r.profile = { existsInDb := true, inserted := 0, skipped := true } ∧
          r.profileData = none) := by
  simp only [sync_person, hfetch]
  rcases hpe : py_getD pd "education" (Json.arr []) with e1 | education_list
  · simp only [hpe]
    refine ⟨?_, ?_, ?_⟩ <;> intro _ <;>
      exact ⟨by simp [insertsFor], fun r hr => by simp at hr⟩
  simp only [hpe]
  rcases hpx : py_getD pd "experience" (Json.arr []) with e2 | experience_list
  · simp only [hpx]
    refine ⟨?_, ?_, ?_⟩ <;> intro _ <;>
      exact ⟨by simp [insertsFor], fun r hr => by simp at hr⟩
  simp only [hpx]
  refine ⟨?_, ?_, ?_⟩
  · intro hedu
    rw [hedu]
    simp only [syncListTable_skip]
    rcases hex : (syncListTable "linkedin_experience" lid env.expExists dry env.expInsertErrs
        (transform_experience experience_list lid today)).2 with e3 | expOut
    · simp only [hex]
      refine ⟨?_, fun r hr => by simp at hr⟩
      simp [insertsFor_append, insertsFor_query, insertsFor_cons_query,
            insertsFor_cons_queryMapping, insertsFor_nil, insertsFor_syncMapping, insertsFor_syncListTable]
    · simp only [hex]
      rcases hpr : (syncProfileTable lid env.profExists dry env.profInsertErrs
          (transform_profile hid lid education_list experience_list today cy)).2
          with e4 | profOut
      · simp only [hpr]
        refine ⟨?_, fun r hr => by simp at hr⟩
        simp [insertsFor_append, insertsFor_query, insertsFor_cons_query,
            insertsFor_cons_queryMapping, insertsFor_nil, insertsFor_syncMapping,
          insertsFor_syncListTable, insertsFor_syncProfileTable]
      · simp only [hpr]
        refine ⟨?_, ?_⟩
        · simp [insertsFor_append, insertsFor_query, insertsFor_cons_query,
            insertsFor_cons_queryMapping, insertsFor_nil, insertsFor_syncMapping,
            insertsFor_syncListTable, insertsFor_syncProfileTable]
        · intro r hr
          injection hr with hr2
          subst hr2
          exact ⟨rfl, rfl⟩
  · intro hexp
    rw [hexp]
    simp only [syncListTable_skip]
    rcases hed : (syncListTable "linkedin_education" lid env.eduExists dry env.eduInsertErrs
        (transform_education education_list lid today)).2 with e3 | eduOut
    · simp only [hed]
      refine ⟨?_, fun r hr => by simp at hr⟩
      simp [insertsFor_append, insertsFor_query, insertsFor_cons_query,
            insertsFor_cons_queryMapping, insertsFor_nil, insertsFor_syncMapping, insertsFor_syncListTable]
    · simp only [hed]
      rcases hpr : (syncProfileTable lid env.profExists dry env.profInsertErrs
          (transform_profile hid lid education_list experience_list today cy)).2
          with e4 | profOut
      · simp only [hpr]
        refine ⟨?_, fun r hr => by simp at hr⟩
        simp [insertsFor_append, insertsFor_query, insertsFor_cons_query,
            insertsFor_cons_queryMapping, insertsFor_nil, insertsFor_syncMapping,
          insertsFor_syncListTable, insertsFor_syncProfileTable]
      · simp only [hpr]
        refine ⟨?_, ?_⟩
        · simp [insertsFor_append, insertsFor_query, insertsFor_cons_query,
            insertsFor_cons_queryMapping, insertsFor_nil, insertsFor_syncMapping,
            insertsFor_syncListTable, insertsFor_syncProfileTable]
        · intro r hr
          injection hr with hr2
          subst hr2
          exact ⟨rfl, rfl⟩
  · intro hprof
    rw [hprof]
    simp only [syncProfileTable_skip]
    rcases hed : (syncListTable "linkedin_education" lid env.eduExists dry env.eduInsertErrs
        (transform_education education_list lid today)).2 with e3 | eduOut
    · simp only [hed]
      refine ⟨?_, fun r hr => by simp at hr⟩
      simp [insertsFor_append, insertsFor_query, insertsFor_cons_query,
            insertsFor_cons_queryMapping, insertsFor_nil, insertsFor_syncMapping, insertsFor_syncListTable]
    · simp only [hed]
      rcases hex : (syncListTable "linkedin_experience" lid env.expExists dry env.expInsertErrs
          (transform_experience experience_list lid today)).2 with e4 | expOut
      · simp only [hex]
        refine ⟨?_, fun r hr => by simp at hr⟩
        simp [insertsFor_append, insertsFor_query, insertsFor_cons_query,
            insertsFor_cons_queryMapping, insertsFor_nil, insertsFor_syncMapping, insertsFor_syncListTable]
      · simp only [hex]
        refine ⟨?_, ?_⟩
        · simp [insertsFor_append, insertsFor_query, insertsFor_cons_query,
            insertsFor_cons_queryMapping, insertsFor_nil, insertsFor_syncMapping,
            insertsFor_syncListTable, insertsFor_syncProfileTable]
        · intro r hr
          injection hr with hr2
          subst hr2
          exact ⟨rfl, rfl⟩

theorem C9_witness :
    insertsFor "linkedin_education" sync9.1 = [] ∧
    insertsFor "linkedin_experience" sync9.1 = [] ∧
    insertsFor "linkedin_profile" sync9.1 = [] ∧
    rep9.education = { existsInDb := true, inserted := 0, skipped := true } ∧
    rep9.experienceData = [] ∧
    rep9.profileData = none := by
  obtain ⟨h1, h2, h3⟩ :=
    C9_sync_skip env9 pd9 36601930 "daniel" "2026-10-12" "ts" 2026 false rfl
  have h1e := h1 rfl
  have h2e := h2 rfl
  have h3e := h3 rfl
  exact ⟨h1e.1, h2e.1, h3e.1, (h1e.2 rep9 rfl).1, (h2e.2 rep9 rfl).2, (h3e.2 rep9 rfl).2⟩

/-- C10: when the upstream profile fetch raises, sync_person returns
immediately: the report carries a non-empty errors list, every table
(mapping, education, experience, profile) reports zero inserted and not
skipped, and no warehouse existence check or insert is performed. -/
theorem C10_fetch_failure (env : SyncEnv) (hid : Int) (lid today nowIso : String) (cy : Int)
    (dry : Bool) (e : String) (hfetch : env.fetchOutcome = .error e) :
    (sync_person env hid lid today nowIso cy dry).1 = [] ∧
    exceptMap (fun r : SyncReport =>
        (r.errors.isEmpty, r.mapping, r.education, r.experience, r.profile))
      (sync_person env hid lid today nowIso cy dry).2
      = .ok (false,
          { existsInDb := false, inserted := 0, skipped := false },
          { existsInDb := false, inserted := 0, skipped := false },
          { existsInDb := false, inserted := 0, skipped := false },
          { existsInDb := false, inserted := 0, skipped := false }) := by
  simp [sync_person, hfetch, exceptMap, initReport]

theorem C10_witness :
    (sync_person env10 36601930 "daniel" "2026-10-12" "ts" 2026 false).1 = [] ∧
    exceptMap (fun r : SyncReport =>
        (r.errors.isEmpty, r.mapping, r.education, r.experience, r.profile))
      (sync_person env10 36601930 "daniel" "2026-10-12" "ts" 2026 false).2
      = .ok (false,
          { existsInDb := false, inserted := 0, skipped := false },
          { existsInDb := false, inserted := 0, skipped := false },
          { existsInDb := false, inserted := 0, skipped := false },
          { existsInDb := false, inserted := 0, skipped := false }) :=
  C10_fetch_failure env10 36601930 "daniel" "2026-10-12" "ts" 2026 false "boom" rfl

end Harmonic
